import Mathlib

/-!
Verification of the two command-line scripts of the `enwikt-dump-rs` helper
scripts directory: `save_json.py` (the Formatter-Saver) and
`update_data_page.py` (the Timestamp-Updater).

Strings are embedded as `List Char` (Lean code points coincide with Python
code points for every input appearing here).  Bytes are embedded as `Nat`
values below 256.  The wiki client (pywikibot) is embedded as an effect
trace: constructing a site or a page handle performs no observable
operation, while reading `page.text`, reading a file and `page.save`
each append one effect.
-/

namespace EnwiktDump

/-- Observable side effect of a script run: a file read, a wiki page text
load, or a wiki page save carrying the edit summary and the minor flag. -/
inductive Eff where
  | fileRead : List Char → Eff
  | pageLoad : List Char → Eff
  | pageSave : List Char → List Char → Bool → Eff

/-- Result of a script run: the ordered effect trace and either a fatal
error message (an uncaught Python exception) or the saved page text. -/
structure RunResult where
  effects : List Eff
  outcome : Except (List Char) (List Char)

/-- The left brace character, written by code point to keep braces out of
string literals. -/
def lbrace : Char := Char.ofNat 123

/-- The right brace character. -/
def rbrace : Char := Char.ofNat 125

/-- The single quote character. -/
def squote : Char := Char.ofNat 39

/-- Embeds the regex `\d` of `re.fullmatch(r'\d{4}-\d{2}-\d{2}', date)` in
`update_data_page.py`.  Python's `\d` also accepts non-ASCII Unicode
decimal digits; every date string considered in this development is ASCII,
and the model covers that fragment. -/
def isPyDigit (c : Char) : Bool := c.isDigit

/-- Embeds `re.fullmatch(r'\d{4}-\d{2}-\d{2}', date)` from
`update_data_page.py` line 9: a full (not partial) match of exactly four
digits, a hyphen, two digits, a hyphen and two digits. -/
def isValidDate : List Char → Bool
  | [y1, y2, y3, y4, '-', m1, m2, '-', d1, d2] =>
    isPyDigit y1 && isPyDigit y2 && isPyDigit y3 && isPyDigit y4 &&
    isPyDigit m1 && isPyDigit m2 && isPyDigit d1 && isPyDigit d2
  | _ => false

/-- The literal prefix of the marker pattern, `<!-- {{subst:` (13
characters), from the regex on line 16 of `update_data_page.py`.  Braces
are written with code-point escapes. -/
def openPat : List Char := "<!-- \x7b\x7bsubst:".data

/-- The literal closer of the marker pattern, `}} -->` (6 characters). -/
def closePat : List Char := "\x7d\x7d -->".data

/-- The first five characters of the marker, `<!-- `. -/
def lead5 : List Char := "<!-- ".data

/-- Characters 5..13 of the marker, `{{subst:`. -/
def subOpen : List Char := "\x7b\x7bsubst:".data

/-- The two closing braces ending capture group 2. -/
def braces2 : List Char := "\x7d\x7d".data

/-- The last four characters of the marker closer, ` -->`. -/
def tail4 : List Char := " -->".data

/-- Leftmost occurrence of `needle` in `s` at or after absolute index `i`
(where `s` is the suffix of the subject starting at index `i`).  Returns
the absolute index of the occurrence.  This is the scan a regex engine
performs for a literal. -/
def findSub (needle : List Char) : List Char → Nat → Option Nat
  | [], i => if needle.isEmpty then some i else none
  | s@(_ :: rest), i => if needle.isPrefixOf s then some i else findSub needle rest (i + 1)

/-- Position of the lazy `.+?\}\}` closer for a match attempt at index `i`:
the leftmost occurrence of `}} -->` at index `i + 14` or later (the inner
`.+?` must consume at least one character after the 13-character opener,
and with `re.DOTALL` it may consume any character, including newlines).
This is exactly the least inner width accepted by the lazy quantifier,
since the rest of the pattern (`.*$`) never fails. -/
def matchClose (text : List Char) (i : Nat) : Option Nat :=
  findSub closePat (text.drop (i + 14)) (i + 14)

/-- Whether the regex `(<!-- (\{\{subst:.+?\}\}) -->).*$` (with
`re.DOTALL`) can match starting at index `i`: the opener is present at `i`
and a closer occurrence exists at `i + 14` or later. -/
def matchesAt (text : List Char) (i : Nat) : Bool :=
  openPat.isPrefixOf (text.drop i) && (matchClose text i).isSome

/-- Scan of match start positions `i, i+1, ...` (bounded by `fuel`), the
leftmost-match search done by `re.sub`.  Returns the match start and the
index of the closer `}} -->`. -/
def findMarkerFrom (text : List Char) : Nat → Nat → Option (Nat × Nat)
  | _, 0 => none
  | i, fuel + 1 =>
    if openPat.isPrefixOf (text.drop i) then
      match matchClose text i with
      | some m => some (i, m)
      | none => findMarkerFrom text (i + 1) fuel
    else findMarkerFrom text (i + 1) fuel

/-- The single match of the marker regex in `text` (there is at most one,
because a successful match extends to the end of the subject via the
greedy `.*$`): its start index and closer index. -/
def findMarker (text : List Char) : Option (Nat × Nat) :=
  findMarkerFrom text 0 (text.length + 1)

/-- The span of `text` from index `a` (inclusive) to `b` (exclusive), as a
regex engine defines capture-group spans. -/
def slice (text : List Char) (a b : Nat) : List Char :=
  (text.drop a).take (b - a)

/-- Embeds Python `str.replace("...", date)` from line 18 of
`update_data_page.py`: every non-overlapping occurrence of the three-dot
substring, scanned left to right, is replaced by `date`. -/
def replaceDots (date : List Char) : List Char → List Char
  | '.' :: '.' :: '.' :: rest => date ++ replaceDots date rest
  | c :: rest => c :: replaceDots date rest
  | [] => []

/-- Embeds the `re.sub` call of `update_data_page.py` lines 15-19: if the
pattern matches, the whole match (group 1 and everything after it, to the
end of the text, consumed by the greedy `.*$`) is replaced by group 1
(the full comment, `slice text i (m+6)`), a newline, and group 2 (the
inner subst expression, `slice text (i+5) (m+2)`) with every `...`
replaced by `date`.  With zero matches the text is returned unchanged. -/
def update_data_page_text (text date : List Char) : List Char :=
  match findMarker text with
  | none => text
  | some (i, m) =>
    text.take i ++ slice text i (m + 6) ++ "\n".data
      ++ replaceDots date (slice text (i + 5) (m + 2))

/-- The usage error message of `update_data_page.py` line 6. -/
def updateUsageMsg : List Char :=
  "provide title and date of dump and edit summary".data

/-- The malformed-date error message of `update_data_page.py` line 10:
`"Date '{}' should be in yyyy-mm-dd format".format(date)`. -/
def dateErrMsg (date : List Char) : List Char :=
  "Date ".data ++ [squote] ++ date ++ [squote] ++ " should be in yyyy-mm-dd format".data

/-- Embeds a whole run of `update_data_page.py` on `argv` (element 0 is
the script name, as in `sys.argv`), with `pageText` the text the wiki
client would deliver for the requested title.  Order of operations as in
the script: argument-count check, date validation, then page load (the
`page.text` read inside the `re.sub` call), then save with the given
summary and `minor=False`. -/
def update_data_page_run (argv : List (List Char)) (pageText : List Char) : RunResult :=
  match argv with
  | _ :: title :: date :: summary :: _ =>
    if isValidDate date then
      ⟨[Eff.pageLoad title, Eff.pageSave title summary false],
        Except.ok (update_data_page_text pageText date)⟩
    else ⟨[], Except.error (dateErrMsg date)⟩
  | _ => ⟨[], Except.error updateUsageMsg⟩

/-- UTF-8 encoding of one code point, as `bytes(s, "utf-8")` produces it
(`save_json.py` line 7). -/
def utf8EncodeChar (c : Char) : List Nat :=
  if c.toNat < 128 then [c.toNat]
  else if c.toNat < 2048 then [192 + c.toNat / 64, 128 + c.toNat % 64]
  else if c.toNat < 65536 then
    [224 + c.toNat / 4096, 128 + (c.toNat / 64) % 64, 128 + c.toNat % 64]
  else
    [240 + c.toNat / 262144, 128 + (c.toNat / 4096) % 64, 128 + (c.toNat / 64) % 64,
      128 + c.toNat % 64]

/-- UTF-8 encoding of a string, byte list. -/
def utf8Encode (s : List Char) : List Nat :=
  (s.map utf8EncodeChar).flatten

/-- Octal digit test on a byte. -/
def isOctByte (b : Nat) : Bool := 48 ≤ b && b ≤ 55

/-- Hexadecimal digit test on a byte. -/
def isHexByte (b : Nat) : Bool :=
  (48 ≤ b && b ≤ 57) || (97 ≤ b && b ≤ 102) || (65 ≤ b && b ≤ 70)

/-- Value of a hexadecimal digit byte. -/
def hexVal (b : Nat) : Nat :=
  if b ≤ 57 then b - 48 else if b ≤ 70 then b - 55 else b - 87

/-- Handling of one backslash escape of CPython's `unicode_escape` codec,
given the bytes following the backslash.  Returns the emitted code points
and how many bytes beyond the first were consumed (so the remainder of
the input is the given list with that many plus one bytes dropped).
Covered: the simple escapes, line continuation (backslash before a
newline byte, which emits nothing), one to three octal digits, `\xHH`,
`\uHHHH` and `\UHHHHHHHH` with its range check, and CPython's behavior of
keeping an unrecognized escape as the backslash plus the byte.  Named
`\N{...}` escapes require the Unicode name table and are outside this
model; no input in this development contains one. -/
def pyEscapeSeq : List Nat → Except (List Char) (List Nat × Nat)
  | [] => Except.error ("backslash at end of string".data)
  | e :: rest1 =>
    if e = 10 then Except.ok ([], 0)
    else if e = 92 then Except.ok ([92], 0)
    else if e = 39 then Except.ok ([39], 0)
    else if e = 34 then Except.ok ([34], 0)
    else if e = 97 then Except.ok ([7], 0)
    else if e = 98 then Except.ok ([8], 0)
    else if e = 102 then Except.ok ([12], 0)
    else if e = 110 then Except.ok ([10], 0)
    else if e = 114 then Except.ok ([13], 0)
    else if e = 116 then Except.ok ([9], 0)
    else if e = 118 then Except.ok ([11], 0)
    else if isOctByte e then
      match rest1 with
      | b2 :: b3 :: _ =>
        if isOctByte b2 then
          if isOctByte b3 then
            Except.ok ([(e - 48) * 64 + (b2 - 48) * 8 + (b3 - 48)], 2)
          else Except.ok ([(e - 48) * 8 + (b2 - 48)], 1)
        else Except.ok ([e - 48], 0)
      | [b2] =>
        if isOctByte b2 then Except.ok ([(e - 48) * 8 + (b2 - 48)], 1)
        else Except.ok ([e - 48], 0)
      | [] => Except.ok ([e - 48], 0)
    else if e = 120 then
      match rest1 with
      | h1 :: h2 :: _ =>
        if isHexByte h1 && isHexByte h2 then Except.ok ([hexVal h1 * 16 + hexVal h2], 2)
        else Except.error ("truncated \\xXX escape".data)
      | _ => Except.error ("truncated \\xXX escape".data)
    else if e = 117 then
      match rest1 with
      | h1 :: h2 :: h3 :: h4 :: _ =>
        if isHexByte h1 && isHexByte h2 && isHexByte h3 && isHexByte h4 then
          Except.ok ([hexVal h1 * 4096 + hexVal h2 * 256 + hexVal h3 * 16 + hexVal h4], 4)
        else Except.error ("truncated \\uXXXX escape".data)
      | _ => Except.error ("truncated \\uXXXX escape".data)
    else if e = 85 then
      match rest1 with
      | h1 :: h2 :: h3 :: h4 :: h5 :: h6 :: h7 :: h8 :: _ =>
        if isHexByte h1 && isHexByte h2 && isHexByte h3 && isHexByte h4 &&
           isHexByte h5 && isHexByte h6 && isHexByte h7 && isHexByte h8 then
          if hexVal h1 * 268435456 + hexVal h2 * 16777216 + hexVal h3 * 1048576 +
              hexVal h4 * 65536 + hexVal h5 * 4096 + hexVal h6 * 256 + hexVal h7 * 16 +
              hexVal h8 ≤ 1114111 then
            Except.ok ([hexVal h1 * 268435456 + hexVal h2 * 16777216 + hexVal h3 * 1048576 +
              hexVal h4 * 65536 + hexVal h5 * 4096 + hexVal h6 * 256 + hexVal h7 * 16 +
              hexVal h8], 8)
          else Except.error ("illegal Unicode character".data)
        else Except.error ("truncated \\UXXXXXXXX escape".data)
      | _ => Except.error ("truncated \\UXXXXXXXX escape".data)
    else if e = 78 then
      Except.error ("named escapes are outside this model".data)
    else Except.ok ([92, e], 0)

/-- Embeds CPython's `unicode_escape` codec applied to a byte string
(`save_json.py` line 7): each byte outside an escape sequence becomes the
code point of the same value (Latin-1), and a backslash starts an escape
sequence handled by `pyEscapeSeq`. -/
def pyUnicodeEscapeBytes : List Nat → Except (List Char) (List Nat)
  | [] => Except.ok []
  | b :: rest =>
    if b = 92 then
      match pyEscapeSeq rest with
      | Except.error e => Except.error e
      | Except.ok (em, k) =>
        (pyUnicodeEscapeBytes (rest.drop (k + 1))).map (fun tl => em ++ tl)
    else (pyUnicodeEscapeBytes rest).map (fun tl => b :: tl)
termination_by l => l.length
decreasing_by all_goals (simp; try omega)

/-- A code point as a Lean `Char`, when it is a scalar value.  Python
strings additionally admit lone surrogates (reachable only through
`\uDXXX` escapes); no input in this development produces one. -/
def charOfCodepoint (n : Nat) : Option Char :=
  if h : n.isValidChar then some (Char.ofNatAux n h) else none

/-- All code points of a list as `Char`s, or `none` if any is a lone
surrogate. -/
def mapCodepoints : List Nat → Option (List Char)
  | [] => some []
  | n :: rest =>
    match charOfCodepoint n, mapCodepoints rest with
    | some c, some cs => some (c :: cs)
    | _, _ => none

/-- Embeds `bytes(sys.argv[1], "utf-8").decode("unicode_escape")` from
`save_json.py` line 7: UTF-8 encode the argument, then decode the bytes
with the `unicode_escape` codec. -/
def decode_format_string (s : List Char) : Except (List Char) (List Char) :=
  match pyUnicodeEscapeBytes (utf8Encode s) with
  | Except.error e => Except.error e
  | Except.ok cps =>
    match mapCodepoints cps with
    | some cs => Except.ok cs
    | none => Except.error ("lone surrogate outside this model".data)

/-- Numeric value of a digit string, as `int()` parses a field index. -/
def digitsToNat (field : List Char) : Nat :=
  field.foldl (fun n c => n * 10 + (c.toNat - 48)) 0

/-- Resolution of one replacement field of `str.format`, given the
positional arguments, the automatic-numbering counter and the flags
recording whether automatic or manual numbering has been used.  An empty
field name uses the next automatic index; an all-digit field name uses
that manual index; mixing the two raises `ValueError` and an index past
the argument list raises `IndexError`, both fatal.  Field names,
conversions and format specifications beyond these do not occur in this
development and are mapped to an error. -/
def resolveField (args : List (List Char)) (field : List Char) (i : Nat) (a m : Bool) :
    Except (List Char) (List Char × (Nat × Bool × Bool)) :=
  if field.isEmpty then
    if m then
      Except.error ("cannot switch from manual field specification to automatic field numbering".data)
    else
      match args.get? i with
      | some s => Except.ok (s, (i + 1, true, m))
      | none => Except.error ("Replacement index out of range".data)
  else if field.all Char.isDigit then
    if a then
      Except.error ("cannot switch from automatic field numbering to manual field specification".data)
    else
      match args.get? (digitsToNat field) with
      | some s => Except.ok (s, (i, a, true))
      | none => Except.error ("Replacement index out of range".data)
  else Except.error ("field names, conversions and format specifications are outside this model".data)

/-- Scanner state of the `str.format` parser: ordinary scanning, just
after an opening brace, just after a closing brace, or inside a
replacement field (collected characters held in reverse). -/
inductive FmtMode where
  | scan : FmtMode
  | sawOpen : FmtMode
  | sawClose : FmtMode
  | field : List Char → FmtMode

/-- One-pass scanner of a format string, embedding `str.format` field
substitution: a doubled brace is a literal brace, `...{f}...` substitutes
the field `f` resolved by `resolveField`, and a single unmatched brace
raises `ValueError`. -/
def pyFormatCore (args : List (List Char)) :
    List Char → FmtMode → Nat → Bool → Bool → Except (List Char) (List Char)
  | [], FmtMode.scan, _, _, _ => Except.ok []
  | [], FmtMode.sawOpen, _, _, _ =>
    Except.error ("single opening brace encountered in format string".data)
  | [], FmtMode.sawClose, _, _, _ =>
    Except.error ("single closing brace encountered in format string".data)
  | [], FmtMode.field _, _, _, _ =>
    Except.error ("expected closing brace before end of string".data)
  | c :: rest, FmtMode.scan, i, a, m =>
    if c = lbrace then pyFormatCore args rest FmtMode.sawOpen i a m
    else if c = rbrace then pyFormatCore args rest FmtMode.sawClose i a m
    else (pyFormatCore args rest FmtMode.scan i a m).map (fun tl => c :: tl)
  | c :: rest, FmtMode.sawOpen, i, a, m =>
    if c = lbrace then
      (pyFormatCore args rest FmtMode.scan i a m).map (fun tl => lbrace :: tl)
    else if c = rbrace then
      match resolveField args [] i a m with
      | Except.error e => Except.error e
      | Except.ok (s, (i2, a2, m2)) =>
        (pyFormatCore args rest FmtMode.scan i2 a2 m2).map (fun tl => s ++ tl)
    else pyFormatCore args rest (FmtMode.field [c]) i a m
  | c :: rest, FmtMode.sawClose, i, a, m =>
    if c = rbrace then
      (pyFormatCore args rest FmtMode.scan i a m).map (fun tl => rbrace :: tl)
    else Except.error ("single closing brace encountered in format string".data)
  | c :: rest, FmtMode.field fieldRev, i, a, m =>
    if c = rbrace then
      match resolveField args fieldRev.reverse i a m with
      | Except.error e => Except.error e
      | Except.ok (s, (i2, a2, m2)) =>
        (pyFormatCore args rest FmtMode.scan i2 a2 m2).map (fun tl => s ++ tl)
    else pyFormatCore args rest (FmtMode.field (c :: fieldRev)) i a m

/-- Embeds Python `fmt.format(arg1, ...)` (`save_json.py` line 18 uses one
positional argument). -/
def pyFormat (fmt : List Char) (args : List (List Char)) : Except (List Char) (List Char) :=
  pyFormatCore args fmt FmtMode.scan 0 false false

/-- Whether a string contains a brace character. -/
def hasBrace (l : List Char) : Bool :=
  l.any (fun c => c == lbrace || c == rbrace)

/-- Embeds lines 17-21 of `save_json.py`: `content` is `None` when no
filename argument was given, otherwise the file text.  The page text is
`format_string.format(content)` when `content` is truthy (a nonempty
string), and `format_string` itself when `content` is `None` or empty. -/
def save_json_page_text (format_string : List Char) (content : Option (List Char)) :
    Except (List Char) (List Char) :=
  match content with
  | some c => if c = [] then Except.ok format_string else pyFormat format_string [c]
  | none => Except.ok format_string

/-- The usage error message of `save_json.py` line 6. -/
def saveJsonUsageMsg : List Char :=
  "provide format string and title and edit summary (and optionally filename)".data

/-- Embeds a whole run of `save_json.py` on `argv` (element 0 is the
script name), with `fileContents` the text the filesystem would deliver
for the optional filename argument.  Order of operations as in the
script: argument-count check, format-string decoding, optional file read,
page text computation, then save with `minor=False`. -/
def save_json_run (argv : List (List Char)) (fileContents : List Char) : RunResult :=
  match argv with
  | _ :: fmtArg :: title :: summary :: rest =>
    match decode_format_string fmtArg with
    | Except.error e => ⟨[], Except.error e⟩
    | Except.ok fs =>
      match rest with
      | fname :: _ =>
        match save_json_page_text fs (some fileContents) with
        | Except.ok t => ⟨[Eff.fileRead fname, Eff.pageSave title summary false], Except.ok t⟩
        | Except.error e => ⟨[Eff.fileRead fname], Except.error e⟩
      | [] =>
        match save_json_page_text fs none with
        | Except.ok t => ⟨[Eff.pageSave title summary false], Except.ok t⟩
        | Except.error e => ⟨[], Except.error e⟩
  | _ => ⟨[], Except.error saveJsonUsageMsg⟩

/-! ## Lemmas about the marker search -/

theorem findSub_some (needle : List Char) (s : List Char) :
    ∀ (i m : Nat), findSub needle s i = some m →
      i ≤ m ∧ needle.isPrefixOf (s.drop (m - i)) = true := by
  induction s with
  | nil =>
    intro i m h
    simp only [findSub] at h
    split at h
    · cases h
      refine ⟨Nat.le_refl _, ?_⟩
      simp_all [List.isEmpty_iff]
    · cases h
  | cons c rest ih =>
    intro i m h
    simp only [findSub] at h
    split at h
    next hpre =>
      cases h
      refine ⟨Nat.le_refl _, ?_⟩
      simpa using hpre
    next =>
      obtain ⟨h1, h2⟩ := ih (i + 1) m h
      refine ⟨by omega, ?_⟩
      have hmi : m - i = (m - (i + 1)) + 1 := by omega
      rw [hmi]
      simpa using h2

theorem matchClose_some {text : List Char} {i m : Nat}
    (h : matchClose text i = some m) :
    i + 14 ≤ m ∧ closePat.isPrefixOf (text.drop m) = true := by
  obtain ⟨h1, h2⟩ := findSub_some closePat (text.drop (i + 14)) (i + 14) m h
  refine ⟨h1, ?_⟩
  rw [List.drop_drop] at h2
  have : i + 14 + (m - (i + 14)) = m := by omega
  rwa [this] at h2

theorem findMarkerFrom_some {text : List Char} :
    ∀ (fuel i j m : Nat), findMarkerFrom text i fuel = some (j, m) →
      i ≤ j ∧ openPat.isPrefixOf (text.drop j) = true ∧ matchClose text j = some m ∧
        ∀ l, i ≤ l → l < j → matchesAt text l = false := by
  intro fuel
  induction fuel with
  | zero => intro i j m h; cases h
  | succ fuel ih =>
    intro i j m h
    simp only [findMarkerFrom] at h
    split at h
    next hopen =>
      rcases hc : matchClose text i with _ | m'
      · rw [hc] at h
        obtain ⟨h1, h2, h3, h4⟩ := ih (i + 1) j m h
        refine ⟨by omega, h2, h3, ?_⟩
        intro l hl1 hl2
        rcases Nat.eq_or_lt_of_le hl1 with rfl | hl
        · simp [matchesAt, hc]
        · exact h4 l hl hl2
      · rw [hc] at h
        cases h
        exact ⟨Nat.le_refl _, hopen, hc, fun l hl1 hl2 => absurd hl2 (by omega)⟩
    next hopen =>
      obtain ⟨h1, h2, h3, h4⟩ := ih (i + 1) j m h
      refine ⟨by omega, h2, h3, ?_⟩
      intro l hl1 hl2
      rcases Nat.eq_or_lt_of_le hl1 with rfl | hl
      · simp [matchesAt, Bool.eq_false_iff.mpr hopen]
      · exact h4 l hl hl2

theorem findMarkerFrom_complete {text : List Char} :
    ∀ (fuel i j : Nat), matchesAt text j = true → i ≤ j → j < i + fuel →
      (findMarkerFrom text i fuel).isSome = true := by
  intro fuel
  induction fuel with
  | zero => intro i j _ h1 h2; omega
  | succ fuel ih =>
    intro i j hj h1 h2
    have hj' := hj
    simp only [matchesAt, Bool.and_eq_true, Option.isSome_iff_exists] at hj'
    obtain ⟨hjo, mj, hjc⟩ := hj'
    simp only [findMarkerFrom]
    split
    next hopen =>
      rcases hc : matchClose text i with _ | m'
      · rcases Nat.eq_or_lt_of_le h1 with rfl | hl
        · rw [hjc] at hc; cases hc
        · exact ih (i + 1) j hj hl (by omega)
      · simp
    next hopen =>
      rcases Nat.eq_or_lt_of_le h1 with rfl | hl
      · exact absurd hjo hopen
      · exact ih (i + 1) j hj hl (by omega)

theorem matchesAt_lt_length {text : List Char} {j : Nat}
    (h : matchesAt text j = true) : j < text.length := by
  simp only [matchesAt, Bool.and_eq_true] at h
  have hpre := List.isPrefixOf_iff_prefix.mp h.1
  have hlen := hpre.length_le
  simp only [List.length_drop] at hlen
  have : openPat.length = 13 := by decide
  omega

theorem findMarker_some {text : List Char} {i m : Nat}
    (h : findMarker text = some (i, m)) :
    openPat.isPrefixOf (text.drop i) = true ∧ matchClose text i = some m ∧
      ∀ l, l < i → matchesAt text l = false := by
  obtain ⟨_, h2, h3, h4⟩ := findMarkerFrom_some (text.length + 1) 0 i m h
  exact ⟨h2, h3, fun l hl => h4 l (Nat.zero_le l) hl⟩

theorem findMarker_isSome_of_matchesAt {text : List Char} {j : Nat}
    (h : matchesAt text j = true) : (findMarker text).isSome = true :=
  findMarkerFrom_complete (text.length + 1) 0 j h (Nat.zero_le j)
    (by have := matchesAt_lt_length h; omega)

theorem findMarker_none_of_no_match {text : List Char}
    (h : ∀ l, l < text.length → matchesAt text l = false) :
    findMarker text = none := by
  rcases heq : findMarker text with _ | ⟨i, m⟩
  · rfl
  · obtain ⟨h1, h2, _⟩ := findMarker_some heq
    have hm : matchesAt text i = true := by simp [matchesAt, h1, h2]
    exact absurd (h i (matchesAt_lt_length hm)) (by simp [hm])

/-- Decomposition of the matched span: between the opener at `i` and the
closer at `m`, group 2 is `{{subst:` ++ inner ++ `}}` and group 1 is
`<!-- ` ++ group 2 ++ ` -->`, with a nonempty inner part. -/
theorem marker_decomp {text : List Char} {i m : Nat}
    (hopen : openPat.isPrefixOf (text.drop i) = true)
    (hclose : matchClose text i = some m) :
    i + 14 ≤ m ∧ m + 6 ≤ text.length ∧
      slice text (i + 5) (m + 2) = subOpen ++ slice text (i + 13) m ++ braces2 ∧
      slice text i (m + 6) = lead5 ++ slice text (i + 5) (m + 2) ++ tail4 ∧
      slice text (i + 13) m ≠ [] := by
  obtain ⟨h14, hcp⟩ := matchClose_some hclose
  obtain ⟨t0, ht0⟩ := List.isPrefixOf_iff_prefix.mp hopen
  obtain ⟨u0, hu0⟩ := List.isPrefixOf_iff_prefix.mp hcp
  have hopenLen : openPat.length = 13 := by decide
  have hcloseLen : closePat.length = 6 := by decide
  have ht0' : text.drop (i + 13) = t0 := by
    have hdd : (text.drop i).drop 13 = text.drop (i + 13) := by
      rw [List.drop_drop]
    rw [← hdd, ← ht0, List.drop_left' hopenLen]
  have hlenText : 13 + t0.length = text.length - i := by
    have := congrArg List.length ht0
    simpa [hopenLen] using this
  have hu0' : text.drop m = closePat ++ u0 := hu0.symm
  have hlenM : m + 6 ≤ text.length := by
    have := congrArg List.length hu0
    simp only [List.length_append, List.length_drop, hcloseLen] at this
    omega
  have hinner : t0 = slice text (i + 13) m ++ (closePat ++ u0) := by
    rw [← ht0', ← hu0']
    have : (text.drop (i + 13)).drop (m - (i + 13)) = text.drop m := by
      rw [List.drop_drop]
      have : i + 13 + (m - (i + 13)) = m := by omega
      rw [this]
    rw [slice, ← this, List.take_append_drop]
  have hinnerLen : (slice text (i + 13) m).length = m - i - 13 := by
    simp only [slice, List.length_take, List.length_drop]
    omega
  have hgroup2 : slice text (i + 5) (m + 2) = subOpen ++ slice text (i + 13) m ++ braces2 := by
    have hdrop5 : text.drop (i + 5) = subOpen ++ t0 := by
      have hdd : (text.drop i).drop 5 = text.drop (i + 5) := by
        rw [List.drop_drop]
      rw [← hdd, ← ht0, List.drop_append_of_le_length (by simp [hopenLen])]
      congr 1
    rw [slice, hdrop5, hinner]
    have hsubLen : subOpen.length = 8 := by decide
    rw [List.take_append_eq_append_take, List.take_of_length_le (by omega)]
    have harith : m + 2 - (i + 5) - subOpen.length = (slice text (i + 13) m).length + 2 := by
      rw [hsubLen, hinnerLen]; omega
    rw [harith, List.take_append]
    have : (closePat ++ u0).take 2 = braces2 := by
      rw [List.take_append_of_le_length (by simp [hcloseLen])]
      decide
    rw [this, List.append_assoc]
  refine ⟨h14, hlenM, hgroup2, ?_, ?_⟩
  · -- group 1 decomposition
    have hslice1 : slice text i (m + 6) = openPat ++ (slice text (i + 13) m ++ closePat) := by
      rw [slice, ← ht0, List.take_append_eq_append_take, List.take_of_length_le (by omega)]
      have harith : m + 6 - i - openPat.length = (slice text (i + 13) m).length + 6 := by
        rw [hopenLen, hinnerLen]; omega
      rw [harith, hinner, List.take_append]
      have : (closePat ++ u0).take 6 = closePat := by
        rw [List.take_append_of_le_length (by simp [hcloseLen])]
        simp [hcloseLen, List.take_of_length_le]
      rw [this]
    rw [hslice1, hgroup2]
    have hop : openPat = lead5 ++ subOpen := by decide
    have hcl : closePat = braces2 ++ tail4 := by decide
    rw [hop, hcl]
    simp [List.append_assoc]
  · -- inner part nonempty
    intro hnil
    rw [hnil] at hinnerLen
    simp at hinnerLen
    omega

/-! ## Lemmas about decoding and formatting -/

theorem utf8EncodeChar_ascii {c : Char} (h : c.toNat < 128) :
    utf8EncodeChar c = [c.toNat] := by
  rw [utf8EncodeChar, if_pos h]

theorem utf8Encode_ascii :
    ∀ (s : List Char), (∀ c ∈ s, c.toNat < 128) → utf8Encode s = s.map Char.toNat := by
  intro s
  induction s with
  | nil => intro _; rfl
  | cons c rest ih =>
    intro h
    simp only [utf8Encode, List.map_cons, List.flatten_cons] at *
    rw [utf8EncodeChar_ascii (h c (by simp)), ih (fun d hd => h d (by simp [hd]))]
    rfl

theorem pyUnicodeEscapeBytes_clean :
    ∀ (bs : List Nat), (∀ b ∈ bs, b ≠ 92) → pyUnicodeEscapeBytes bs = Except.ok bs := by
  intro bs
  induction bs with
  | nil => intro _; rw [pyUnicodeEscapeBytes.eq_def]
  | cons b rest ih =>
    intro h
    rw [pyUnicodeEscapeBytes.eq_def]
    simp only [if_neg (h b (by simp))]
    rw [ih (fun d hd => h d (by simp [hd]))]
    rfl

theorem charOfCodepoint_toNat (c : Char) : charOfCodepoint c.toNat = some c := by
  rcases c with ⟨⟨⟨⟨n, hn⟩⟩⟩, hv⟩
  simp only [charOfCodepoint]
  split
  next => rfl
  next hneg => exact absurd hv hneg

theorem mapCodepoints_toNat : ∀ (s : List Char), mapCodepoints (s.map Char.toNat) = some s := by
  intro s
  induction s with
  | nil => rfl
  | cons c rest ih => simp [mapCodepoints, charOfCodepoint_toNat, ih]

theorem pyFormatCore_no_brace (args : List (List Char)) :
    ∀ (l : List Char) (i : Nat) (a m : Bool), hasBrace l = false →
      pyFormatCore args l FmtMode.scan i a m = Except.ok l := by
  intro l
  induction l with
  | nil => intro i a m _; rfl
  | cons c rest ih =>
    intro i a m h
    simp only [hasBrace, List.any_cons, Bool.or_eq_false_iff, beq_eq_false_iff_ne] at h
    obtain ⟨⟨hc1, hc2⟩, hrest⟩ := h
    rw [pyFormatCore, if_neg hc1, if_neg hc2,
      ih i a m (by simpa [hasBrace] using hrest)]
    rfl

theorem pyFormat_no_brace {fmt : List Char} (args : List (List Char))
    (h : hasBrace fmt = false) : pyFormat fmt args = Except.ok fmt :=
  pyFormatCore_no_brace args fmt 0 false false h

theorem decode_format_string_clean (s : List Char)
    (h : ∀ c ∈ s, c.toNat < 128 ∧ c.toNat ≠ 92) :
    decode_format_string s = Except.ok s := by
  have h1 : utf8Encode s = s.map Char.toNat :=
    utf8Encode_ascii s (fun c hc => (h c hc).1)
  have h2 : pyUnicodeEscapeBytes (s.map Char.toNat) = Except.ok (s.map Char.toNat) := by
    apply pyUnicodeEscapeBytes_clean
    intro b hb
    obtain ⟨c, hc, rfl⟩ := List.mem_map.mp hb
    exact (h c hc).2
  simp only [decode_format_string, h1, h2, mapCodepoints_toNat]

theorem dateErrMsg_contains_date (date : List Char) :
    List.IsInfix date (dateErrMsg date) :=
  ⟨"Date ".data ++ [squote], [squote] ++ " should be in yyyy-mm-dd format".data, by
    simp [dateErrMsg]⟩

/-! ## Claim theorems -/

/-- Claim C1: for every page text in which the marker pattern matches (at
start `i` with closer at `m`), the Timestamp-Updater replaces the entire
matched span — the marker comment plus all trailing text to the end of
the document — with capture group 1 (the full comment,
`slice text i (m+6)`, of the form `<!-- ` ++ group 2 ++ ` -->`), then a
newline, then capture group 2 (the inner subst expression,
`slice text (i+5) (m+2)`, of the form `{{subst:` ++ inner ++ `}}`) in
which every literal occurrence of `...` is replaced by the supplied date.
The concrete instance of the claim is the witness theorem. -/
theorem update_text_rewrites_marker_block (text date : List Char) (i m : Nat)
    (h : findMarker text = some (i, m)) :
    ∃ inner : List Char, inner ≠ [] ∧
      slice text (i + 5) (m + 2) = subOpen ++ inner ++ braces2 ∧
      slice text i (m + 6) = lead5 ++ slice text (i + 5) (m + 2) ++ tail4 ∧
      update_data_page_text text date =
        text.take i ++ slice text i (m + 6) ++ "\n".data
          ++ replaceDots date (slice text (i + 5) (m + 2)) := by
  obtain ⟨hopen, hclose, _⟩ := findMarker_some h
  obtain ⟨h14, hlen, hg2, hg1, hne⟩ := marker_decomp hopen hclose
  refine ⟨slice text (i + 13) m, hne, hg2, hg1, ?_⟩
  simp only [update_data_page_text, h]

/-- Witness for C1, the concrete instance stated by the spec: input
`A<!-- {{subst:X...Y}} -->trailing junk` with date `2024-06-01` yields
`A<!-- {{subst:X...Y}} -->` newline `{{subst:X2024-06-01Y}}`. -/
theorem update_text_rewrites_marker_block_example :
    update_data_page_text ("A<!-- \x7b\x7bsubst:X...Y\x7d\x7d -->trailing junk".data)
        ("2024-06-01".data)
      = ("A<!-- \x7b\x7bsubst:X...Y\x7d\x7d -->\n\x7b\x7bsubst:X2024-06-01Y\x7d\x7d".data) := by
  obtain ⟨inner, h1, h2, h3, h4⟩ :=
    update_text_rewrites_marker_block
      ("A<!-- \x7b\x7bsubst:X...Y\x7d\x7d -->trailing junk".data) ("2024-06-01".data)
      1 19 (by decide)
  rw [h4]
  decide

/-- Counterexample to claim C2: on a page text containing two occurrences
of the marker comment pattern, the code rewrites at the first occurrence,
not the last: the block anchored at the first comment survives, and the
second marker comment (the last one) is discarded with the trailing text,
contrary to the claim that only the last comment-anchored block survives.
The first two conjuncts show the input has (at least) two match
positions. -/
theorem update_text_two_markers_keeps_first :
    matchesAt
        ("<!-- \x7b\x7bsubst:A...\x7d\x7d -->x<!-- \x7b\x7bsubst:B...\x7d\x7d -->y".data) 0
      = true ∧
    matchesAt
        ("<!-- \x7b\x7bsubst:A...\x7d\x7d -->x<!-- \x7b\x7bsubst:B...\x7d\x7d -->y".data) 24
      = true ∧
    update_data_page_text
        ("<!-- \x7b\x7bsubst:A...\x7d\x7d -->x<!-- \x7b\x7bsubst:B...\x7d\x7d -->y".data)
        ("2024-06-01".data)
      = ("<!-- \x7b\x7bsubst:A...\x7d\x7d -->\n\x7b\x7bsubst:A2024-06-01\x7d\x7d".data) ∧
    ("<!-- \x7b\x7bsubst:A...\x7d\x7d -->\n\x7b\x7bsubst:A2024-06-01\x7d\x7d".data) ≠
      ("<!-- \x7b\x7bsubst:A...\x7d\x7d -->x<!-- \x7b\x7bsubst:B...\x7d\x7d -->\n\x7b\x7bsubst:B2024-06-01\x7d\x7d".data) := by
  refine ⟨by decide, by decide, by decide, by decide⟩

/-- Amended claim C2: for every page text containing more than one
occurrence of the marker comment pattern, the Timestamp-Updater rewrites
at the first occurrence: only the first comment-anchored block survives
(no earlier position matches), and everything after that first marker
comment is the span that is discarded and regenerated. -/
theorem update_text_rewrites_at_first_occurrence (text date : List Char) (j1 j2 : Nat)
    (h1 : matchesAt text j1 = true) (_h2 : matchesAt text j2 = true) (_hlt : j1 < j2) :
    ∃ i m, findMarker text = some (i, m) ∧ i ≤ j1 ∧
      (∀ l, l < i → matchesAt text l = false) ∧
      update_data_page_text text date =
        text.take i ++ slice text i (m + 6) ++ "\n".data
          ++ replaceDots date (slice text (i + 5) (m + 2)) := by
  have hs := findMarker_isSome_of_matchesAt h1
  rcases heq : findMarker text with _ | ⟨i, m⟩
  · rw [heq] at hs; cases hs
  · obtain ⟨hopen, hclose, hleast⟩ := findMarker_some heq
    refine ⟨i, m, rfl, ?_, hleast, ?_⟩
    · rcases le_or_lt i j1 with hle | hgt
      · exact hle
      · exact absurd h1 (by simp [hleast j1 hgt])
    · simp only [update_data_page_text, heq]

/-- Witness for the amended C2, on the two-marker input of the
counterexample. -/
theorem update_text_rewrites_at_first_occurrence_example :
    ∃ i m,
      findMarker
          ("<!-- \x7b\x7bsubst:A...\x7d\x7d -->x<!-- \x7b\x7bsubst:B...\x7d\x7d -->y".data)
        = some (i, m) ∧
      i ≤ 0 ∧
      (∀ l, l < i →
        matchesAt
          ("<!-- \x7b\x7bsubst:A...\x7d\x7d -->x<!-- \x7b\x7bsubst:B...\x7d\x7d -->y".data) l
          = false) ∧
      update_data_page_text
          ("<!-- \x7b\x7bsubst:A...\x7d\x7d -->x<!-- \x7b\x7bsubst:B...\x7d\x7d -->y".data)
          ("2024-06-01".data)
        = ("<!-- \x7b\x7bsubst:A...\x7d\x7d -->x<!-- \x7b\x7bsubst:B...\x7d\x7d -->y".data).take i
            ++ slice
              ("<!-- \x7b\x7bsubst:A...\x7d\x7d -->x<!-- \x7b\x7bsubst:B...\x7d\x7d -->y".data)
              i (m + 6)
            ++ "\n".data
            ++ replaceDots ("2024-06-01".data)
              (slice
                ("<!-- \x7b\x7bsubst:A...\x7d\x7d -->x<!-- \x7b\x7bsubst:B...\x7d\x7d -->y".data)
                (i + 5) (m + 2)) :=
  update_text_rewrites_at_first_occurrence
    ("<!-- \x7b\x7bsubst:A...\x7d\x7d -->x<!-- \x7b\x7bsubst:B...\x7d\x7d -->y".data)
    ("2024-06-01".data) 0 24 (by decide) (by decide) (by decide)

/-- Claim C5: for every page text in which the marker comment pattern is
not found anywhere (no position matches), the transformation returns the
input text exactly unchanged; the transformation is a total function, so
no error is raised. -/
theorem update_text_no_marker_noop (text date : List Char)
    (h : ∀ l, l < text.length → matchesAt text l = false) :
    update_data_page_text text date = text := by
  simp only [update_data_page_text, findMarker_none_of_no_match h]

/-- Witness for C5 on a page text with no marker. -/
theorem update_text_no_marker_noop_example :
    update_data_page_text ("no marker here".data) ("2024-06-01".data)
      = ("no marker here".data) :=
  update_text_no_marker_noop ("no marker here".data) ("2024-06-01".data) (by decide)

/-- Claim C7: date validation is a purely lexical full match of four
digits, hyphen, two digits, hyphen, two digits: `24-06-01`, `2024-6-1`
and `2024/06/01` all fail, while `2024-06-01` and `9999-99-99` both pass
(so there is no calendar validity checking). -/
theorem date_validation_lexical_cases :
    isValidDate ("24-06-01".data) = false ∧
    isValidDate ("2024-6-1".data) = false ∧
    isValidDate ("2024/06/01".data) = false ∧
    isValidDate ("2024-06-01".data) = true ∧
    isValidDate ("9999-99-99".data) = true := by
  decide

/-- Counterexample to claim C4: the decoding step is
`bytes(s, "utf-8").decode("unicode_escape")`, which re-reads the UTF-8
bytes as Latin-1; on the backslash-free input `é` (UTF-8 bytes 195, 169)
it returns the two-character string `Ã©`, not the input, so decoding is
not the identity on every string without backslash escape sequences. -/
theorem decode_not_identity_on_nonascii :
    (∀ c ∈ ("é".data), c.toNat ≠ 92) ∧
    decode_format_string ("é".data) = Except.ok ("Ã©".data) ∧
    ("Ã©".data) ≠ ("é".data) := by
  have h1 : utf8Encode ("é".data) = [195, 169] := by decide
  have h2 : pyUnicodeEscapeBytes [195, 169] = Except.ok [195, 169] :=
    pyUnicodeEscapeBytes_clean [195, 169] (by decide)
  have h3 : mapCodepoints [195, 169] = some ("Ã©".data) := by decide
  refine ⟨by decide, ?_, by decide⟩
  simp only [decode_format_string, h1, h2, h3]

/-- Amended claim C4: for every input string that contains no backslash
(code point 92) and consists only of ASCII characters (code points below
128), the format-string decoding step is the identity.  (On non-ASCII
input the UTF-8 encode / Latin-1 re-read of `unicode_escape` changes the
string, as the counterexample shows.) -/
theorem decode_identity_on_ascii_no_backslash (s : List Char)
    (h : ∀ c ∈ s, c.toNat < 128 ∧ c.toNat ≠ 92) :
    decode_format_string s = Except.ok s :=
  decode_format_string_clean s h

/-- Witness for the amended C4 on a backslash-free ASCII string. -/
theorem decode_identity_on_ascii_no_backslash_example :
    decode_format_string ("plain text 123".data) = Except.ok ("plain text 123".data) :=
  decode_identity_on_ascii_no_backslash ("plain text 123".data) (by decide)

/-- Counterexample to claim C3: with a filename supplied, the final page
text does not always equal `decoded_format.format(file_contents)`.  When
the file contents read as the empty string the code's truthiness test
skips formatting: for decoded format `a{}b` the page text stays `a{}b`
although `format` would produce `ab`.  And the clause that a decoded
format with no `{}` placeholder is left unchanged also fails: `a{{b` has
no placeholder, yet nonempty contents give `a{b`. -/
theorem save_json_text_not_always_formatted :
    save_json_page_text ("a\x7b\x7db".data) (some []) = Except.ok ("a\x7b\x7db".data) ∧
    pyFormat ("a\x7b\x7db".data) [[]] = Except.ok ("ab".data) ∧
    ("a\x7b\x7db".data) ≠ ("ab".data) ∧
    save_json_page_text ("a\x7b\x7bb".data) (some ("x".data)) = Except.ok ("a\x7bb".data) ∧
    ("a\x7bb".data) ≠ ("a\x7b\x7bb".data) :=
  ⟨rfl, rfl, by decide, rfl, by decide⟩

/-- Amended claim C3: for every filename supplied whose contents read as
a nonempty string, the final page text is
`decoded_format.format(file_contents)` (here: the successful result of
`pyFormat`), saved after the file is read; and if the decoded format
string contains no brace character at all, that final text equals the
decoded format string unchanged even though the file is read. -/
theorem save_json_formats_nonempty_content
    (prog fmtArg title summary fname fs c t : List Char)
    (hdec : decode_format_string fmtArg = Except.ok fs) (hc : c ≠ [])
    (hfmt : pyFormat fs [c] = Except.ok t) :
    save_json_run [prog, fmtArg, title, summary, fname] c =
      ⟨[Eff.fileRead fname, Eff.pageSave title summary false], Except.ok t⟩ ∧
    (hasBrace fs = false → t = fs) := by
  constructor
  · simp only [save_json_run, hdec, save_json_page_text, if_neg hc, hfmt]
  · intro hb
    have hid := pyFormat_no_brace [c] hb
    rw [hfmt] at hid
    injection hid with hid

/-- Witness for the amended C3: format `A={}`, file contents `V`. -/
theorem save_json_formats_nonempty_content_example :
    save_json_run
        [("save_json.py".data), ("A=\x7b\x7d".data), ("T".data), ("S".data), ("data.json".data)]
        ("V".data) =
      ⟨[Eff.fileRead ("data.json".data), Eff.pageSave ("T".data) ("S".data) false],
        Except.ok ("A=V".data)⟩ ∧
    (hasBrace ("A=\x7b\x7d".data) = false → ("A=V".data) = ("A=\x7b\x7d".data)) :=
  save_json_formats_nonempty_content _ _ _ _ _ _ _ _
    (decode_format_string_clean _ (by decide)) (by decide) rfl

/-- Claim C6: for every date argument failing the full-match check, the
Timestamp-Updater aborts with the error message naming the malformed date
(the date string occurs inside the message), and its effect trace is
empty: no page load and no save is attempted. -/
theorem update_run_invalid_date_aborts (prog title date summary : List Char)
    (rest : List (List Char)) (pageText : List Char)
    (h : isValidDate date = false) :
    update_data_page_run (prog :: title :: date :: summary :: rest) pageText =
      ⟨[], Except.error (dateErrMsg date)⟩ ∧
    List.IsInfix date (dateErrMsg date) := by
  constructor
  · simp only [update_data_page_run]
    rw [if_neg (by simp [h])]
  · exact dateErrMsg_contains_date date

/-- Witness for C6 on the malformed date `2024-6-1`. -/
theorem update_run_invalid_date_aborts_example :
    update_data_page_run
        [("update_data_page.py".data), ("T".data), ("2024-6-1".data), ("S".data)]
        ("page".data) =
      ⟨[], Except.error (dateErrMsg ("2024-6-1".data))⟩ ∧
    List.IsInfix ("2024-6-1".data) (dateErrMsg ("2024-6-1".data)) :=
  update_run_invalid_date_aborts _ _ _ _ [] _ (by decide)

/-- Claim C8: for either tool invoked with fewer than 3 required
arguments (so `sys.argv`, script name included, has fewer than 4
entries), the run aborts with the tool's usage error and an empty effect
trace: no wiki operation and no file read is attempted. -/
theorem usage_error_before_io (argv : List (List Char)) (pageText fileContents : List Char)
    (h : argv.length < 4) :
    update_data_page_run argv pageText = ⟨[], Except.error updateUsageMsg⟩ ∧
    save_json_run argv fileContents = ⟨[], Except.error saveJsonUsageMsg⟩ := by
  rcases argv with _ | ⟨a, _ | ⟨b, _ | ⟨c, _ | ⟨d, rest⟩⟩⟩⟩
  · exact ⟨rfl, rfl⟩
  · exact ⟨rfl, rfl⟩
  · exact ⟨rfl, rfl⟩
  · exact ⟨rfl, rfl⟩
  · exact absurd h (by simp)

/-- Witness for C8: two arguments only. -/
theorem usage_error_before_io_example :
    update_data_page_run [("prog".data), ("only-arg".data)] ("page".data) =
      ⟨[], Except.error updateUsageMsg⟩ ∧
    save_json_run [("prog".data), ("only-arg".data)] ("file".data) =
      ⟨[], Except.error saveJsonUsageMsg⟩ :=
  usage_error_before_io [("prog".data), ("only-arg".data)] ("page".data) ("file".data)
    (by decide)

/-- Claim C9: for every invocation of the Formatter-Saver without a
fourth (filename) argument, the page text is set exactly equal to the
decoded format string, with no substitution attempted even if that string
contains placeholder syntax, and the only effect is the save. -/
theorem save_json_no_filename_verbatim (prog fmtArg title summary fs fc : List Char)
    (hdec : decode_format_string fmtArg = Except.ok fs) :
    save_json_run [prog, fmtArg, title, summary] fc =
      ⟨[Eff.pageSave title summary false], Except.ok fs⟩ := by
  simp only [save_json_run, hdec, save_json_page_text]

/-- Witness for C9: the decoded format string `x={}` contains placeholder
syntax and is still saved verbatim. -/
theorem save_json_no_filename_verbatim_example :
    save_json_run [("save_json.py".data), ("x=\x7b\x7d".data), ("T".data), ("S".data)] [] =
      ⟨[Eff.pageSave ("T".data) ("S".data) false], Except.ok ("x=\x7b\x7d".data)⟩ :=
  save_json_no_filename_verbatim _ _ _ _ _ []
    (decode_format_string_clean _ (by decide))

/-- Claim C10 (implicit): when a filename is supplied but the file
contents read as the empty string, the truthiness test on the contents
(not the presence of the filename argument) selects the branch: no
substitution is performed, the file is still read, and the page text is
the decoded format string verbatim. -/
theorem save_json_empty_file_verbatim (prog fmtArg title summary fname fs : List Char)
    (hdec : decode_format_string fmtArg = Except.ok fs) :
    save_json_run [prog, fmtArg, title, summary, fname] [] =
      ⟨[Eff.fileRead fname, Eff.pageSave title summary false], Except.ok fs⟩ := by
  simp only [save_json_run, hdec, save_json_page_text]
  rfl

/-- Witness for C10: the decoded format string `n={}` has a placeholder,
the file contents are empty, and the text is saved verbatim after the
file read. -/
theorem save_json_empty_file_verbatim_example :
    save_json_run
        [("save_json.py".data), ("n=\x7b\x7d".data), ("T".data), ("S".data), ("data.json".data)]
        [] =
      ⟨[Eff.fileRead ("data.json".data), Eff.pageSave ("T".data) ("S".data) false],
        Except.ok ("n=\x7b\x7d".data)⟩ :=
  save_json_empty_file_verbatim _ _ _ _ _ _
    (decode_format_string_clean _ (by decide))

end EnwiktDump
